import Mathlib

/-!
Shallow embedding of the bot-dashboard client logic: the derived-view
transforms (status helpers, trade-event grouping), the formatting helpers,
the polling step of the state hook, and the equity-chart adapter
(per-series data preparation, downsampling, and the one-shot visible-range
initialisation), together with theorems checking the specification's
claims about them.

JavaScript numbers are modelled as `JSNum` (a finite rational, NaN, or an
infinity) where non-finite values matter, and as plain rationals where the
values come from parsed JSON (JSON cannot encode NaN or an infinity) and
the code does exact arithmetic on them.
-/

namespace BotDashboard

/-- Model of a JavaScript number: a finite value (as a rational), NaN, or
one of the two infinities. -/
inductive JSNum where
  | num (q : ℚ)
  | nan
  | posInf
  | negInf
deriving DecidableEq

namespace JSNum

/-- Number.isFinite: true exactly on finite values. -/
def isFinite : JSNum → Bool
  | num _ => true
  | _ => false

/-- Number.isNaN. -/
def isNaN : JSNum → Bool
  | nan => true
  | _ => false

/-- JavaScript strict greater-than against a finite constant; any comparison
involving NaN is false (IEEE semantics). -/
def gtQ : JSNum → ℚ → Bool
  | num a, c => decide (c < a)
  | posInf, _ => true
  | _, _ => false

/-- JavaScript greater-or-equal against a finite constant; any comparison
involving NaN is false (IEEE semantics). -/
def geQ : JSNum → ℚ → Bool
  | num a, c => decide (c ≤ a)
  | posInf, _ => true
  | _, _ => false

end JSNum

/-- Math.round of a finite JavaScript number: the floor of x + 1/2
(JavaScript rounds half-way cases toward positive infinity). -/
def jsRound (q : ℚ) : ℤ := ⌊q + 1 / 2⌋

/- ── Data model (src/types, part_004) ─────────────────────────────── -/

/-- One point of an account's equity history: Unix timestamp and equity. -/
structure EquityPoint where
  ts : ℚ
  equity : ℚ
deriving DecidableEq

/-- One trade event.  Only the fields read by the grouping and sorting
logic are modelled; the remaining optional payload fields (prices, sizes,
pnl, ...) are rendered verbatim and never branch the code under
verification. -/
structure TradeEvent where
  type : String
  time : String
  result : Option String
  reject_reason : Option String
deriving DecidableEq

/-- A pending trade of an account. -/
structure PendingTrade where
  side : String
  pm_price : ℚ
  size_usdc : ℚ
deriving DecidableEq

/-- Per-account data of the snapshot. -/
structure AccountData where
  label : String
  mode : String
  equity : ℚ
  pnl : ℚ
  total_trades : ℕ
  wins : ℕ
  losses : ℕ
  win_rate : ℚ
  pending_trade : Option PendingTrade
  equity_history : List EquityPoint
  trade_events : List TradeEvent
deriving DecidableEq

/-- The current-market block of the snapshot.  Its numbers come straight
from parsed JSON, which cannot encode NaN or an infinity, so they are
modelled as rationals. -/
structure MarketInfo where
  title : String
  slug : String
  seconds_elapsed : ℚ
  seconds_remaining : ℚ
  tick_in_window : ℚ
  btc_start_price : ℚ
  btc_current_move : ℚ
deriving DecidableEq

/-- One decision-log entry. -/
structure DecisionEntry where
  time : String
  action : String
  reason : String
  strategy : String
  slug : Option String
deriving DecidableEq

/-- One deferred resolution. -/
structure DeferredResolution where
  slug : String
  mode : String
  strategy : String
  side : String
  entry_price : ℚ
  size_usdc : ℚ
  queued_at : ℚ
  check_after : ℚ
deriving DecidableEq

/-- The snapshot payload of GET /api/state.  The optional trailing fields
(resolution-timeout notifications, api health log) are not read by any of
the verified code and are omitted; the string-keyed accounts record is
modelled as an association list. -/
structure BotState where
  updated_at : String
  uptime_seconds : JSNum
  active_seconds : JSNum
  paused_seconds : JSNum
  bot_paused : Bool
  btc_price : Option ℚ
  chainlink_btc_price : Option ℚ
  rtds_connected : Bool
  rtds_stale : Bool
  rtds_seconds_since_update : Option JSNum
  clob_ws_connected : Bool
  clob_ws_seconds_since_update : Option JSNum
  yes_price : ℚ
  no_price : ℚ
  btc_move : ℚ
  chainlink_btc_move : ℚ
  delta_pct : ℚ
  current_market : Option MarketInfo
  accounts : List (String × AccountData)
  decision_log : List DecisionEntry
  deferred_resolutions : List DeferredResolution
deriving DecidableEq

/- ── Status helpers (part_002) ─────────────────────────────────────── -/

/-- Sentinel the backend may send as "no update yet". -/
def SUSPICIOUS_SECS : ℚ := 999

/-- Ten minutes; an age at least this large is not shown literally. -/
def MAX_REASONABLE_SECS : ℚ := 600

/-- The formatSecsAgo helper.  The source guard is
typeof secs !== "number" OR !Number.isFinite(secs) OR
secs >= MAX_REASONABLE_SECS OR secs >= SUSPICIOUS_SECS; the typeof test
cannot fire for a number argument and every non-finite `JSNum` fails
Number.isFinite, so the guard reduces to the match below.  On the
non-sentinel path the source renders Math.round(secs) followed by
"s ago". -/
def formatSecsAgo : JSNum → String
  | .num q =>
      if MAX_REASONABLE_SECS ≤ q ∨ SUSPICIOUS_SECS ≤ q then "No recent update"
      else toString (jsRound q) ++ "s ago"
  | _ => "No recent update"

/-- Result record of getClobWsStatus. -/
structure ClobStatus where
  ok : Bool
  warning : Bool
  status : String
  detail : String
deriving DecidableEq

/-- The getClobWsStatus transform.  hasMarket is the truthiness of
state.current_market, and secsSince null-coalesces the seconds field to 0,
exactly as in the source. -/
def getClobWsStatus (state : BotState) : ClobStatus :=
  let hasMarket := state.current_market.isSome
  let connected := state.clob_ws_connected
  let secsSince := state.clob_ws_seconds_since_update.getD (.num 0)
  if !connected then
    ⟨false, false, "Disconnected", "Not connected"⟩
  else if !hasMarket then
    ⟨true, true, "Idle", "No active market"⟩
  else
    let detail := formatSecsAgo secsSince
    if secsSince.gtQ 60 || secsSince.geQ SUSPICIOUS_SECS || !secsSince.isFinite then
      ⟨false, false, "Stale", detail⟩
    else
      ⟨true, false, "Connected", detail⟩

/-- The stale condition of the specification claim, read on the raw
nullable field: strictly above 60, at least 999, or not a finite number.
A null field satisfies none of these. -/
def staleCond (state : BotState) : Prop :=
  match state.clob_ws_seconds_since_update with
  | some v => v.gtQ 60 = true ∨ v.geQ SUSPICIOUS_SECS = true ∨ v.isFinite = false
  | none => False

instance (state : BotState) : Decidable (staleCond state) := by
  unfold staleCond
  cases state.clob_ws_seconds_since_update <;> infer_instance

/- ── State poller (src/hooks/use-bot-state.ts) ─────────────────────── -/

/-- The three pieces of React state held by useBotState. -/
structure PollerState where
  state : Option BotState
  error : Option String
  lastFetch : ℤ
deriving DecidableEq

/-- Outcome of one fetch of GET /api/state.  success carries the parsed
payload and the Date.now() at completion; httpError is a response whose
res.ok is false (carrying its HTTP status); fetchFailure is a rejected
fetch or a failed res.json(), carrying the thrown error's message (none
models a thrown value that is not an Error instance). -/
inductive FetchOutcome where
  | success (payload : BotState) (now : ℤ)
  | httpError (status : ℕ)
  | fetchFailure (message : Option String)
deriving DecidableEq

/-- One round of fetchState: a non-OK response throws Error("HTTP " ++
status) into the same catch block as a network or parse failure; only the
success path touches state and lastFetch. -/
def fetchState (s : PollerState) (o : FetchOutcome) : PollerState :=
  match o with
  | .success payload now => ⟨some payload, none, now⟩
  | .httpError status => ⟨s.state, some ("HTTP " ++ toString status), s.lastFetch⟩
  | .fetchFailure message => ⟨s.state, some (message.getD "Connection failed"), s.lastFetch⟩

/- ── Dashboard page derived value (part_000, part_001, page.tsx) ───── -/

/-- The market-window progress fraction computed by the Dashboard
component: mkt is falsy gives 0, else min(1, max(0, seconds_elapsed / 300)). -/
def windowPct (mkt : Option MarketInfo) : ℚ :=
  match mkt with
  | some m => min 1 (max 0 (m.seconds_elapsed / 300))
  | none => 0

/- ── Formatting helpers (src/lib/format.ts) ────────────────────────── -/

/-- JavaScript remainder for the positive operands reached by fmtUptime
(for a positive dividend and divisor the truncating JS remainder equals
the floor-based one). -/
def jsMod (a b : ℚ) : ℚ := a - b * ⌊a / b⌋

/-- Digits of a natural number grouped from the right in blocks of three. -/
def chunk3 : List Char → List (List Char)
  | [] => []
  | [a] => [[a]]
  | [a, b] => [[a, b]]
  | a :: b :: c :: rest => [a, b, c] :: chunk3 rest

/-- en-US thousands grouping of a natural number. -/
def groupThousands (n : ℕ) : String :=
  let rev := (toString n).data.reverse
  let chunks := (chunk3 rev).map List.reverse
  String.mk (List.intercalate [','] chunks.reverse)

/-- Two-digit zero-padded rendering of a value below 100. -/
def twoDigits (n : ℕ) : String :=
  if n < 10 then "0" ++ toString n else toString n

/-- Model of n.toLocaleString("en-US") with exactly two fraction digits:
round to cents away-from-zero on ties, then group the integer part. -/
def usdString (q : ℚ) : String :=
  let sign := if q < 0 then "-" else ""
  let cents := (jsRound (|q| * 100)).toNat
  sign ++ groupThousands (cents / 100) ++ "." ++ twoDigits (cents % 100)

/-- Zero-pad a digit string on the left to the requested width. -/
def padZeros (s : String) (d : ℕ) : String :=
  String.mk (List.replicate (d - s.length) '0') ++ s

/-- Model of n.toFixed(digits) for a finite value. -/
def toFixedStr (q : ℚ) (digits : ℕ) : String :=
  let sign := if q < 0 then "-" else ""
  let scaled := (jsRound (|q| * (10 : ℚ) ^ digits)).toNat
  let base := 10 ^ digits
  if digits = 0 then sign ++ toString (scaled / base)
  else sign ++ toString (scaled / base) ++ "." ++ padZeros (toString (scaled % base)) digits

/-- The fmtUptime helper.  The guard s == null catches both null and
undefined (both modelled as none); a NaN or non-positive number also
yields "0s".  On a positive finite number the source floors days, hours,
minutes and seconds with JavaScript / and %.  A positive-infinity input
passes the guard and renders through JavaScript arithmetic on Infinity
(floor(Infinity/86400) is Infinity, Infinity % 86400 is NaN, and days > 0
selects the day format). -/
def fmtUptime : Option JSNum → String
  | none => "0s"
  | some .nan => "0s"
  | some .negInf => "0s"
  | some .posInf => "Infinityd NaNh NaNm"
  | some (.num q) =>
      if q ≤ 0 then "0s"
      else
        let days := ⌊q / 86400⌋
        let hrs := ⌊jsMod q 86400 / 3600⌋
        let mins := ⌊jsMod q 3600 / 60⌋
        let secs := ⌊jsMod q 60⌋
        if 0 < days then
          toString days ++ "d " ++ toString hrs ++ "h " ++ toString mins ++ "m"
        else if 0 < hrs then
          toString hrs ++ "h " ++ toString mins ++ "m " ++ toString secs ++ "s"
        else
          toString mins ++ "m " ++ toString secs ++ "s"

/-- The fmtUsd helper.  n == null catches null and undefined (modelled as
none); NaN yields the dash; a finite value renders as a dollar-prefixed
en-US string; the ECMA-402 formatter renders the infinities with the
infinity sign. -/
def fmtUsd : Option JSNum → String
  | none => "—"
  | some .nan => "—"
  | some .posInf => "$∞"
  | some .negInf => "$-∞"
  | some (.num q) => "$" ++ usdString q

/-- The safeToFixed helper: the same null/undefined/NaN guard, then
value.toFixed(digits). -/
def safeToFixed : Option JSNum → ℕ → String
  | none, _ => "—"
  | some .nan, _ => "—"
  | some .posInf, _ => "Infinity"
  | some .negInf, _ => "-Infinity"
  | some (.num q), digits => toFixedStr q digits

/- ── Trade-event grouping (trade-column.tsx, part_007) ─────────────── -/

/-- String containment, modelling String.prototype.includes. -/
def strIncludes (s pattern : String) : Bool :=
  decide (pattern.data <:+: s.data)

namespace TradeColumn

/-- Events of type RESOLUTION whose result is WIN. -/
def winEvents (acct : AccountData) : List TradeEvent :=
  acct.trade_events.filter (fun e => e.type == "RESOLUTION" && e.result == some "WIN")

/-- Events of type RESOLUTION whose result is LOSS. -/
def lossEvents (acct : AccountData) : List TradeEvent :=
  acct.trade_events.filter (fun e => e.type == "RESOLUTION" && e.result == some "LOSS")

/-- Events of type ENTRY. -/
def entryEvents (acct : AccountData) : List TradeEvent :=
  acct.trade_events.filter (fun e => e.type == "ENTRY")

/-- Events of type NEAR_MISS, dropping — for the account labelled
Dual (Both) — those whose reject_reason contains "disagrees".  An absent
reject_reason survives the filter: in the source the optional chain
e.reject_reason?.includes(...) is undefined there, which is falsy. -/
def nearMissEvents (acct : AccountData) : List TradeEvent :=
  (acct.trade_events.filter (fun e => e.type == "NEAR_MISS")).filter
    (fun e =>
      !(acct.label == "Dual (Both)" &&
        (match e.reject_reason with
         | some r => strIncludes r "disagrees"
         | none => false)))

end TradeColumn

/-- The EventSection comparator (a, b) => b.time.localeCompare(a.time) as
a merge-sort precondition: a may stay before b when b.time ≤ a.time,
giving a newest-first order.  localeCompare is modelled as lexicographic
string comparison (the time strings are plain ASCII timestamps), and the
source's (x.time || "") fallback is the identity on strings. -/
def timeDescLE (a b : TradeEvent) : Bool :=
  decide (b.time ≤ a.time)

/-- The sorted copy EventSection builds: [...events].sort(cmp). -/
def sortEventsDesc (events : List TradeEvent) : List TradeEvent :=
  events.mergeSort timeDescLE

/-- EventSection's visible structure: nothing when count is 0, otherwise
the first three sorted events as preview and the rest behind the toggle. -/
def sectionView (events : List TradeEvent) : Option (List TradeEvent × List TradeEvent) :=
  if events.length = 0 then none
  else
    let sorted := sortEventsDesc events
    some (sorted.take 3, sorted.drop 3)

/- ── Equity chart adapter (part_005, second revision) ──────────────── -/

/-- One point handed to a lightweight-charts line series. -/
structure ChartPoint where
  time : ℚ
  value : ℚ
deriving DecidableEq, Inhabited

/-- Downsample above this to keep the full range without lag. -/
def MAX_CHART_POINTS : ℕ := 8000

/-- Index picked by the downsampling loop for output slot i out of m over
an input of length n: the last slot pins the last input index, every other
slot rounds i * (n-1)/(m-1).  The division and rounding are exact rational
arithmetic here where the source uses doubles; for the integer ranges
involved the two agree on every claim proved below. -/
def dsIdx (n m i : ℕ) : ℕ :=
  if i = m - 1 then n - 1
  else (jsRound ((i : ℚ) * (((n : ℚ) - 1) / ((m : ℚ) - 1)))).toNat

/-- The downsample function: data of length at most maxPoints is returned
unchanged, otherwise one element is pushed per output slot.  The source
reads data[idx]; the indices are proved in range below, so the getD
default is never produced for the inputs the claims quantify over. -/
def downsample {α : Type} [Inhabited α] (data : List α) (maxPoints : ℕ) : List α :=
  if data.length ≤ maxPoints then data
  else (List.range maxPoints).map (fun i => data.getD (dsIdx data.length maxPoints i) default)

/-- The chart-data comparator (a, b) => a.time - b.time as a merge-sort
precondition: nondecreasing time. -/
def chartTimeLE (a b : ChartPoint) : Bool :=
  decide (a.time ≤ b.time)

/-- Pointwise mapping of a history entry to a series point. -/
def toChartPoint (pt : EquityPoint) : ChartPoint :=
  ⟨pt.ts, pt.equity⟩

/-- The data handed to series.setData for one account: map the history
pointwise, sort by time ascending, then downsample to the point ceiling. -/
def seriesData (history : List EquityPoint) : List ChartPoint :=
  downsample ((history.map toChartPoint).mergeSort chartTimeLE) MAX_CHART_POINTS

/-- The keys of MODE_CONFIG, in declaration order. -/
def MODE_KEYS : List String :=
  ["binance_only", "chainlink_only", "dual"]

/-- The modes for which the mount effect creates a line series: one per
MODE_CONFIG entry whose account is present in the snapshot. -/
def seriesModes (accounts : List (String × AccountData)) : List String :=
  MODE_KEYS.filter (fun mode => (accounts.lookup mode).isSome)

/- ── Chart update effect as a state machine (part_005, part_001) ───── -/

/-- What one polling update sees for each MODE_CONFIG entry: none when the
account (and hence its series) is absent, otherwise the account's equity
history. -/
def ChartSnapshot : Type := List (Option (List EquityPoint))

/-- The update effect's hasData flag: some present account has a non-empty
equity history. -/
def snapHasData (snap : ChartSnapshot) : Bool :=
  snap.any (fun h =>
    match h with
    | some hist => !hist.isEmpty
    | none => false)

/-- One run of the data-update effect against the initialRangeSet ref:
returns the new flag value and whether this run called into the time
scale (setVisibleRange with a fitContent fallback in one revision, a bare
fitContent in the other). -/
def chartUpdateStep (flag : Bool) (snap : ChartSnapshot) : Bool × Bool :=
  let hasData := snapHasData snap
  if hasData && !flag then (true, true) else (flag, false)

/-- The per-update viewport-call record of a whole polling run, threading
the initialRangeSet ref through consecutive effect runs. -/
def chartViewportCalls : Bool → List ChartSnapshot → List Bool
  | _, [] => []
  | flag, snap :: rest =>
      let step := chartUpdateStep flag snap
      step.2 :: chartViewportCalls step.1 rest

/-- The value of the initialRangeSet ref after a run of polling updates. -/
def chartFlagAfter : Bool → List ChartSnapshot → Bool
  | flag, [] => flag
  | flag, snap :: rest => chartFlagAfter (chartUpdateStep flag snap).1 rest

/-- Modelled from the spec: the adapter "appending new points without
resetting the visible time range chosen by the user" sets the range only
on the first update that has data.  This marks the first true of a
boolean trace and nothing afterwards. -/
def firstTrueOnly : List Bool → List Bool
  | [] => []
  | b :: rest =>
      if b then true :: rest.map (fun _ => false)
      else false :: firstTrueOnly rest

/- ── Concrete inputs used by the witnesses and counterexample ──────── -/

/-- A concrete account with a few trade events and history points. -/
def acctEx : AccountData :=
  ⟨"Binance Only", "binance_only", 105, 5, 3, 2, 1, (2 : ℚ) / 3, none,
    [⟨100, 100⟩, ⟨50, 99⟩, ⟨150, 105⟩],
    [⟨"RESOLUTION", "2024-01-02T00:00:00Z", some "WIN", none⟩,
     ⟨"ENTRY", "2024-01-01T00:00:00Z", none, none⟩,
     ⟨"RESOLUTION", "2024-01-03T00:00:00Z", some "LOSS", none⟩,
     ⟨"NEAR_MISS", "2024-01-04T00:00:00Z", none, some "sources disagrees on direction"⟩]⟩

/-- A concrete disconnected bot state. -/
def stEx : BotState :=
  ⟨"2024-01-01T00:00:00Z", .num 1000, .num 900, .num 100, false,
    some 43000, some 43010, true, false, some (.num 2),
    false, some (.num 3), (1 : ℚ) / 2, (1 : ℚ) / 2, 10, 12, (1 : ℚ) / 10,
    none, [("binance_only", acctEx)], [], []⟩

/-- A concrete market 150 seconds into its window. -/
def mktEx : MarketInfo :=
  ⟨"BTC 5m", "btc-5m", 150, 150, 30, 43000, 12⟩

/-- A concrete connected bot state with an active market and a fresh
socket update. -/
def stEx2 : BotState :=
  ⟨"2024-01-01T00:00:00Z", .num 1000, .num 900, .num 100, false,
    some 43000, some 43010, true, false, some (.num 2),
    true, some (.num 3), (1 : ℚ) / 2, (1 : ℚ) / 2, 10, 12, (1 : ℚ) / 10,
    some mktEx, [("binance_only", acctEx)], [], []⟩

/-- A concrete five-point chart series. -/
def chartEx : List ChartPoint :=
  [⟨1, 10⟩, ⟨2, 11⟩, ⟨3, 12⟩, ⟨4, 13⟩, ⟨5, 14⟩]

/-- A concrete equity history longer than the chart point ceiling. -/
def bigHistory : List EquityPoint :=
  (List.range (MAX_CHART_POINTS + 1)).map (fun i : ℕ => ⟨(i : ℚ), 0⟩)

/-- A concrete poller state holding a previous snapshot. -/
def pollerEx : PollerState :=
  ⟨some stEx, none, 1700000000⟩

/- ── Helper lemmas ─────────────────────────────────────────────────── -/

/-- No string followed by the age suffix can collide with the sentinel
text. -/
theorem append_sago_ne (s : String) : s ++ "s ago" ≠ "No recent update" := by
  intro h
  have hd : (s ++ "s ago").data = "No recent update".data := by rw [h]
  rw [String.data_append] at hd
  have hlen : s.data.length + 5 = 16 := by
    have hl := congrArg List.length hd
    simpa using hl
  have h11 : s.data.length = 11 := by omega
  have hdrop := congrArg (List.drop 11) hd
  rw [List.drop_left' h11] at hdrop
  simp at hdrop

/-- C5: formatSecsAgo returns "No recent update" exactly when the input is
not a finite number or is at least 600 (the 999 sentinel included), and
otherwise returns Math.round(secs) followed by "s ago"; a sentinel value is
never rendered as a literal duration. -/
theorem formatSecsAgo_sentinel (secs : JSNum) :
    (formatSecsAgo secs = "No recent update" ↔
      secs.isFinite = false ∨ ∃ q : ℚ, secs = .num q ∧ MAX_REASONABLE_SECS ≤ q) ∧
    (∀ q : ℚ, secs = .num q → q < MAX_REASONABLE_SECS →
      formatSecsAgo secs = toString (jsRound q) ++ "s ago") := by
  constructor
  · cases secs with
    | num q =>
        simp only [formatSecsAgo, JSNum.isFinite]
        by_cases hq : MAX_REASONABLE_SECS ≤ q ∨ SUSPICIOUS_SECS ≤ q
        · rw [if_pos hq]
          constructor
          · intro _
            refine Or.inr ⟨q, rfl, ?_⟩
            rcases hq with h6 | h9
            · exact h6
            · unfold MAX_REASONABLE_SECS
              unfold SUSPICIOUS_SECS at h9
              linarith
          · intro _; rfl
        · rw [if_neg hq]
          constructor
          · intro h
            exact absurd h (append_sago_ne _)
          · rintro (h | ⟨q', hq', h6⟩)
            · simp at h
            · cases hq'
              exact absurd (Or.inl h6) hq
    | nan => simp [formatSecsAgo, JSNum.isFinite]
    | posInf => simp [formatSecsAgo, JSNum.isFinite]
    | negInf => simp [formatSecsAgo, JSNum.isFinite]
  · intro q hq hlt
    cases hq
    simp only [formatSecsAgo]
    rw [if_neg]
    rintro (h6 | h9)
    · exact absurd h6 (not_le.mpr hlt)
    · unfold SUSPICIOUS_SECS at h9
      unfold MAX_REASONABLE_SECS at hlt
      linarith

/-- Witness for C5: the 999 sentinel renders as the sentinel text and a
plain 42 seconds renders as a rounded age. -/
theorem formatSecsAgo_sentinel_witness :
    formatSecsAgo (.num 999) = "No recent update" ∧
      formatSecsAgo (.num 42) = toString (jsRound 42) ++ "s ago" := by
  constructor
  · exact (formatSecsAgo_sentinel (.num 999)).1.mpr
      (Or.inr ⟨999, rfl, by unfold MAX_REASONABLE_SECS; norm_num⟩)
  · exact (formatSecsAgo_sentinel (.num 42)).2 42 rfl
      (by unfold MAX_REASONABLE_SECS; norm_num)

/-- C4: getClobWsStatus is pure and returns Disconnected (ok and warning
false) when the socket is down; Idle (ok and warning true) when connected
with no active market; Stale (ok and warning false) when the age exceeds
60, reaches the 999 sentinel, or is not finite; and Connected (ok true,
warning false) otherwise. -/
theorem getClobWsStatus_spec (st : BotState) :
    (st.clob_ws_connected = false →
      (getClobWsStatus st).status = "Disconnected" ∧
        (getClobWsStatus st).ok = false ∧ (getClobWsStatus st).warning = false) ∧
    (st.clob_ws_connected = true → st.current_market = none →
      (getClobWsStatus st).status = "Idle" ∧
        (getClobWsStatus st).ok = true ∧ (getClobWsStatus st).warning = true) ∧
    (st.clob_ws_connected = true → st.current_market.isSome = true → staleCond st →
      (getClobWsStatus st).status = "Stale" ∧
        (getClobWsStatus st).ok = false ∧ (getClobWsStatus st).warning = false) ∧
    (st.clob_ws_connected = true → st.current_market.isSome = true → ¬ staleCond st →
      (getClobWsStatus st).status = "Connected" ∧
        (getClobWsStatus st).ok = true ∧ (getClobWsStatus st).warning = false) := by
  refine ⟨?_, ?_, ?_, ?_⟩
  · intro hc
    simp [getClobWsStatus, hc]
  · intro hc hm
    simp [getClobWsStatus, hc, hm]
  · intro hc hm hstale
    unfold staleCond at hstale
    cases hmk : st.current_market with
    | none => rw [hmk] at hm; simp at hm
    | some mkt =>
        cases hsecs : st.clob_ws_seconds_since_update with
        | none => rw [hsecs] at hstale; simp at hstale
        | some v =>
            rw [hsecs] at hstale
            simp only [getClobWsStatus, hc, hmk, hsecs]
            have hcond : (v.gtQ 60 || v.geQ SUSPICIOUS_SECS || !v.isFinite) = true := by
              rcases hstale with h | h | h
              · simp [h]
              · simp [h]
              · simp [h]
            simp [hcond]
  · intro hc hm hstale
    unfold staleCond at hstale
    cases hmk : st.current_market with
    | none => rw [hmk] at hm; simp at hm
    | some mkt =>
        cases hsecs : st.clob_ws_seconds_since_update with
        | none =>
            simp only [getClobWsStatus, hc, hmk, hsecs]
            simp [JSNum.gtQ, JSNum.geQ, JSNum.isFinite, Option.getD,
              SUSPICIOUS_SECS]
            norm_num
        | some v =>
            rw [hsecs] at hstale
            simp only [getClobWsStatus, hc, hmk, hsecs]
            have hcond : (v.gtQ 60 || v.geQ SUSPICIOUS_SECS || !v.isFinite) = false := by
              rcases hg : v.gtQ 60 with _ | _
              · rcases hge : v.geQ SUSPICIOUS_SECS with _ | _
                · rcases hf : v.isFinite with _ | _
                  · exact absurd (Or.inr (Or.inr hf)) hstale
                  · simp
                · exact absurd (Or.inr (Or.inl hge)) hstale
              · exact absurd (Or.inl hg) hstale
            simp [hcond]

/-- Witness for C4: a disconnected socket reports Disconnected, and a
connected socket with a market and a 3-second-old update reports
Connected. -/
theorem getClobWsStatus_spec_witness :
    ((getClobWsStatus stEx).status = "Disconnected" ∧
      (getClobWsStatus stEx).ok = false ∧ (getClobWsStatus stEx).warning = false) ∧
    ((getClobWsStatus stEx2).status = "Connected" ∧
      (getClobWsStatus stEx2).ok = true ∧ (getClobWsStatus stEx2).warning = false) :=
  ⟨(getClobWsStatus_spec stEx).1 rfl,
   (getClobWsStatus_spec stEx2).2.2.2 rfl rfl
     (by
       unfold staleCond stEx2
       simp [JSNum.gtQ, JSNum.geQ, JSNum.isFinite, SUSPICIOUS_SECS]
       norm_num)⟩

/-- C3: one poll step of useBotState leaves the held snapshot and the
lastFetch timestamp unchanged on any failure (network or parse failure, or
a non-OK HTTP status) and only sets the error message; on success it
replaces the snapshot with the parsed payload, clears the error, and
updates lastFetch. -/
theorem fetchState_spec (s : PollerState) (o : FetchOutcome) :
    (∀ status : ℕ, o = .httpError status →
      fetchState s o = ⟨s.state, some ("HTTP " ++ toString status), s.lastFetch⟩) ∧
    (∀ message : Option String, o = .fetchFailure message →
      fetchState s o = ⟨s.state, some (message.getD "Connection failed"), s.lastFetch⟩) ∧
    (∀ (payload : BotState) (now : ℤ), o = .success payload now →
      fetchState s o = ⟨some payload, none, now⟩) := by
  refine ⟨?_, ?_, ?_⟩
  · intro status h; cases h; rfl
  · intro message h; cases h; rfl
  · intro payload now h; cases h; rfl

/-- Witness for C3: an HTTP 500 keeps the previous snapshot and timestamp
and sets the error string, while a success replaces all three fields. -/
theorem fetchState_spec_witness :
    fetchState pollerEx (.httpError 500) =
      ⟨pollerEx.state, some ("HTTP " ++ toString 500), pollerEx.lastFetch⟩ ∧
    fetchState pollerEx (.success stEx2 1700000002) =
      ⟨some stEx2, none, 1700000002⟩ :=
  ⟨(fetchState_spec pollerEx (.httpError 500)).1 500 rfl,
   (fetchState_spec pollerEx (.success stEx2 1700000002)).2.2 stEx2 1700000002 rfl⟩

/-- C9: the formatting helpers are total at the public interface: fmtUsd
and safeToFixed return the dash for null, undefined and NaN inputs, and
fmtUptime returns "0s" for null, undefined, NaN and every non-positive
number. -/
theorem format_helpers_total :
    fmtUsd none = "—" ∧ fmtUsd (some .nan) = "—" ∧
    (∀ digits : ℕ, safeToFixed none digits = "—" ∧ safeToFixed (some .nan) digits = "—") ∧
    fmtUptime none = "0s" ∧ fmtUptime (some .nan) = "0s" ∧
    (∀ q : ℚ, q ≤ 0 → fmtUptime (some (.num q)) = "0s") := by
  refine ⟨rfl, rfl, fun _ => ⟨rfl, rfl⟩, rfl, rfl, ?_⟩
  intro q hq
  simp [fmtUptime, hq]

/-- Witness for C9: an uptime of -1 seconds renders as "0s". -/
theorem format_helpers_total_witness :
    fmtUptime (some (.num (-1))) = "0s" :=
  format_helpers_total.2.2.2.2.2 (-1) (by norm_num)

/-- C10: the market-window progress fraction always lies in the closed
unit interval, equals seconds_elapsed / 300 exactly on the window, and is
0 when there is no current market. -/
theorem windowPct_spec :
    (∀ mkt : Option MarketInfo, 0 ≤ windowPct mkt ∧ windowPct mkt ≤ 1) ∧
    (∀ m : MarketInfo, 0 ≤ m.seconds_elapsed → m.seconds_elapsed ≤ 300 →
      windowPct (some m) = m.seconds_elapsed / 300) ∧
    windowPct none = 0 := by
  refine ⟨?_, ?_, rfl⟩
  · intro mkt
    cases mkt with
    | none => constructor <;> norm_num [windowPct]
    | some m =>
        constructor
        · exact le_min zero_le_one (le_max_left 0 _)
        · exact min_le_left 1 _
  · intro m h0 h300
    have hnn : 0 ≤ m.seconds_elapsed / 300 := by positivity
    have hle : m.seconds_elapsed / 300 ≤ 1 := by
      rw [div_le_one (by norm_num : (0 : ℚ) < 300)]
      exact h300
    simp only [windowPct]
    rw [max_eq_right hnn, min_eq_right hle]

/-- Witness for C10: 150 seconds into the 300-second window gives exactly
one half. -/
theorem windowPct_spec_witness :
    windowPct (some mktEx) = mktEx.seconds_elapsed / 300 :=
  windowPct_spec.2.1 mktEx (by norm_num [mktEx]) (by norm_num [mktEx])

/-- The descending time comparator is transitive. -/
theorem timeDescLE_trans (a b c : TradeEvent)
    (hab : timeDescLE a b = true) (hbc : timeDescLE b c = true) :
    timeDescLE a c = true := by
  simp only [timeDescLE, decide_eq_true_eq] at *
  exact le_trans hbc hab

/-- The descending time comparator is total. -/
theorem timeDescLE_total (a b : TradeEvent) :
    (timeDescLE a b || timeDescLE b a) = true := by
  simp only [timeDescLE, Bool.or_eq_true, decide_eq_true_eq]
  exact le_total b.time a.time

/-- The sorted copy EventSection builds is a permutation of its input. -/
theorem sortEventsDesc_perm (events : List TradeEvent) :
    (sortEventsDesc events).Perm events :=
  List.mergeSort_perm events timeDescLE

/-- The sorted copy EventSection builds is newest-first. -/
theorem sortEventsDesc_sorted (events : List TradeEvent) :
    (sortEventsDesc events).Pairwise (fun a b => b.time ≤ a.time) := by
  have h := List.sorted_mergeSort timeDescLE_trans timeDescLE_total events
  exact h.imp (fun hab => by
    simpa only [timeDescLE, decide_eq_true_eq] using hab)

/-- The keep-condition of the near-miss filter, propositionally. -/
theorem nearMiss_keep_iff (acct : AccountData) (e : TradeEvent) :
    ((!(acct.label == "Dual (Both)" &&
        (match e.reject_reason with
         | some r => strIncludes r "disagrees"
         | none => false))) = true) ↔
      ¬(acct.label = "Dual (Both)" ∧
          ∃ r, e.reject_reason = some r ∧ "disagrees".data <:+: r.data) := by
  cases hr : e.reject_reason with
  | none => simp
  | some r =>
      simp only [hr, strIncludes, Bool.not_eq_true', Bool.and_eq_false_iff,
        beq_eq_false_iff_ne, ne_eq, decide_eq_false_iff_not, Option.some.injEq]
      constructor
      · rintro (h | h) ⟨ha, r', hr', hin⟩
        · exact h ha
        · cases hr'; exact h hin
      · intro h
        by_cases ha : acct.label = "Dual (Both)"
        · exact Or.inr (fun hin => h ⟨ha, r, rfl, hin⟩)
        · exact Or.inl ha

/-- C6: TradeColumn groups trade events into wins (RESOLUTION/WIN), losses
(RESOLUTION/LOSS), entries (ENTRY) and near-misses (NEAR_MISS, minus the
"disagrees"-rejected ones on the account labelled Dual (Both)), and each
non-empty section shows its events newest-first — a permutation of the
category — with the first three as preview and the rest behind a toggle. -/
theorem tradeColumn_spec (acct : AccountData) :
    (∀ e, e ∈ TradeColumn.winEvents acct ↔
      e ∈ acct.trade_events ∧ e.type = "RESOLUTION" ∧ e.result = some "WIN") ∧
    (∀ e, e ∈ TradeColumn.lossEvents acct ↔
      e ∈ acct.trade_events ∧ e.type = "RESOLUTION" ∧ e.result = some "LOSS") ∧
    (∀ e, e ∈ TradeColumn.entryEvents acct ↔
      e ∈ acct.trade_events ∧ e.type = "ENTRY") ∧
    (∀ e, e ∈ TradeColumn.nearMissEvents acct ↔
      e ∈ acct.trade_events ∧ e.type = "NEAR_MISS" ∧
        ¬(acct.label = "Dual (Both)" ∧
            ∃ r, e.reject_reason = some r ∧ "disagrees".data <:+: r.data)) ∧
    (∀ events : List TradeEvent, events ≠ [] →
      (sortEventsDesc events).Perm events ∧
      (sortEventsDesc events).Pairwise (fun a b => b.time ≤ a.time) ∧
      sectionView events =
        some ((sortEventsDesc events).take 3, (sortEventsDesc events).drop 3)) := by
  refine ⟨?_, ?_, ?_, ?_, ?_⟩
  · intro e
    simp [TradeColumn.winEvents, List.mem_filter, and_assoc]
  · intro e
    simp [TradeColumn.lossEvents, List.mem_filter, and_assoc]
  · intro e
    simp [TradeColumn.entryEvents, List.mem_filter]
  · intro e
    simp only [TradeColumn.nearMissEvents, List.mem_filter, beq_iff_eq,
      Bool.and_eq_true, and_assoc]
    rw [nearMiss_keep_iff acct e]
  · intro events hne
    refine ⟨sortEventsDesc_perm events, sortEventsDesc_sorted events, ?_⟩
    have hlen : events.length ≠ 0 := fun h => hne (List.length_eq_zero.mp h)
    simp [sectionView, hlen]

/-- Witness for C6: on a concrete account the win category picks exactly
the winning resolution, and the non-empty event list sorts newest-first
into a preview and a remainder. -/
theorem tradeColumn_spec_witness :
    (⟨"RESOLUTION", "2024-01-02T00:00:00Z", some "WIN", none⟩ ∈
        TradeColumn.winEvents acctEx ↔
      (⟨"RESOLUTION", "2024-01-02T00:00:00Z", some "WIN", none⟩ : TradeEvent) ∈
          acctEx.trade_events ∧
        ("RESOLUTION" : String) = "RESOLUTION" ∧ some "WIN" = some "WIN") ∧
    ((sortEventsDesc acctEx.trade_events).Perm acctEx.trade_events ∧
      (sortEventsDesc acctEx.trade_events).Pairwise (fun a b => b.time ≤ a.time) ∧
      sectionView acctEx.trade_events =
        some ((sortEventsDesc acctEx.trade_events).take 3,
          (sortEventsDesc acctEx.trade_events).drop 3)) :=
  ⟨by
    have h := (tradeColumn_spec acctEx).1
      ⟨"RESOLUTION", "2024-01-02T00:00:00Z", some "WIN", none⟩
    simpa using h,
   (tradeColumn_spec acctEx).2.2.2.2 acctEx.trade_events (by simp [acctEx])⟩

/-- Math.round is monotone. -/
theorem jsRound_mono {a b : ℚ} (h : a ≤ b) : jsRound a ≤ jsRound b :=
  Int.floor_le_floor (by linarith)

/-- Math.round of a nonnegative value is nonnegative. -/
theorem jsRound_nonneg {q : ℚ} (h : 0 ≤ q) : 0 ≤ jsRound q := by
  unfold jsRound
  rw [Int.le_floor]
  push_cast
  linarith

/-- Math.round advances by at least one over a gap of at least one. -/
theorem jsRound_add_one_le {a b : ℚ} (h : a + 1 ≤ b) : jsRound a + 1 ≤ jsRound b := by
  unfold jsRound
  calc ⌊a + 1 / 2⌋ + 1 = ⌊a + 1 / 2 + 1⌋ := (Int.floor_add_one _).symm
    _ ≤ ⌊b + 1 / 2⌋ := Int.floor_le_floor (by linarith)

/-- The sampling step is above one whenever the data is actually reduced. -/
theorem dsStep_gt_one {n m : ℕ} (hm : 2 ≤ m) (hmn : m < n) :
    1 < ((n : ℚ) - 1) / ((m : ℚ) - 1) := by
  have hm1 : (0 : ℚ) < (m : ℚ) - 1 := by
    have h2 : (2 : ℚ) ≤ (m : ℚ) := by exact_mod_cast hm
    linarith
  rw [lt_div_iff₀ hm1]
  have hmn' : (m : ℚ) < (n : ℚ) := by exact_mod_cast hmn
  linarith

/-- The last output slot pins the last input index. -/
theorem dsIdx_last (n m : ℕ) : dsIdx n m (m - 1) = n - 1 := by
  simp [dsIdx]

/-- Unfolding of an interior output slot. -/
theorem dsIdx_interior {n m i : ℕ} (hi : i ≠ m - 1) :
    dsIdx n m i = (jsRound ((i : ℚ) * (((n : ℚ) - 1) / ((m : ℚ) - 1)))).toNat := by
  simp [dsIdx, hi]

/-- Every interior slot lands at least two positions before the end. -/
theorem dsIdx_upper {n m i : ℕ} (hm : 2 ≤ m) (hmn : m < n) (hi : i < m - 1) :
    dsIdx n m i ≤ n - 2 := by
  have hm1 : (0 : ℚ) < (m : ℚ) - 1 := by
    have h2 : (2 : ℚ) ≤ (m : ℚ) := by exact_mod_cast hm
    linarith
  set s : ℚ := ((n : ℚ) - 1) / ((m : ℚ) - 1) with hs
  have hs1 : 1 < s := dsStep_gt_one hm hmn
  have hin : (i : ℚ) ≤ (m : ℚ) - 2 := by
    have hi2 : (i : ℚ) + 2 ≤ (m : ℚ) := by
      have : i + 2 ≤ m := by omega
      exact_mod_cast this
    linarith
  have hmul : (i : ℚ) * s ≤ ((m : ℚ) - 2) * s :=
    mul_le_mul_of_nonneg_right hin (by linarith)
  have hident : ((m : ℚ) - 2) * s = ((n : ℚ) - 1) - s := by
    rw [hs]
    field_simp
    ring
  have hfloor : jsRound ((i : ℚ) * s) ≤ (n : ℤ) - 2 := by
    have h1 : jsRound ((i : ℚ) * s) ≤ jsRound (((n : ℚ) - 1) - s) := by
      apply jsRound_mono
      rw [← hident]
      exact hmul
    have h2 : jsRound (((n : ℚ) - 1) - s) < (n : ℤ) - 1 := by
      unfold jsRound
      rw [Int.floor_lt]
      push_cast
      linarith
    omega
  have hnn : 0 ≤ jsRound ((i : ℚ) * s) :=
    jsRound_nonneg (mul_nonneg (Nat.cast_nonneg i) (by linarith))
  rw [dsIdx_interior (show i ≠ m - 1 by omega)]
  have htn : ((jsRound ((i : ℚ) * s)).toNat : ℤ) = jsRound ((i : ℚ) * s) :=
    Int.toNat_of_nonneg hnn
  rw [← hs]
  omega

/-- Every slot index is in range. -/
theorem dsIdx_bound {n m i : ℕ} (hm : 2 ≤ m) (hmn : m < n) (hi : i < m) :
    dsIdx n m i < n := by
  by_cases h : i = m - 1
  · rw [h, dsIdx_last]
    omega
  · have := dsIdx_upper hm hmn (show i < m - 1 by omega)
    omega

/-- Slot indices are strictly increasing. -/
theorem dsIdx_strictMono {n m i j : ℕ} (hm : 2 ≤ m) (hmn : m < n)
    (hij : i < j) (hj : j < m) : dsIdx n m i < dsIdx n m j := by
  by_cases hjm : j = m - 1
  · rw [hjm, dsIdx_last]
    have := dsIdx_upper hm hmn (show i < m - 1 by omega)
    omega
  · have hj1 : j < m - 1 := by omega
    have hi1 : i < m - 1 := by omega
    have hm1 : (0 : ℚ) < (m : ℚ) - 1 := by
      have h2 : (2 : ℚ) ≤ (m : ℚ) := by exact_mod_cast hm
      linarith
    set s : ℚ := ((n : ℚ) - 1) / ((m : ℚ) - 1) with hs
    have hs1 : 1 < s := dsStep_gt_one hm hmn
    have hstep : (i : ℚ) * s + 1 ≤ (j : ℚ) * s := by
      have hij' : (i : ℚ) + 1 ≤ (j : ℚ) := by exact_mod_cast hij
      have h1 : ((i : ℚ) + 1) * s ≤ (j : ℚ) * s :=
        mul_le_mul_of_nonneg_right hij' (by linarith)
      nlinarith
    have hlt : jsRound ((i : ℚ) * s) + 1 ≤ jsRound ((j : ℚ) * s) :=
      jsRound_add_one_le hstep
    have hnn : 0 ≤ jsRound ((i : ℚ) * s) :=
      jsRound_nonneg (mul_nonneg (Nat.cast_nonneg i) (by linarith))
    rw [dsIdx_interior (by omega), dsIdx_interior (by omega), ← hs]
    have ht1 : ((jsRound ((i : ℚ) * s)).toNat : ℤ) = jsRound ((i : ℚ) * s) :=
      Int.toNat_of_nonneg hnn
    have ht2 : ((jsRound ((j : ℚ) * s)).toNat : ℤ) = jsRound ((j : ℚ) * s) :=
      Int.toNat_of_nonneg (by omega)
    omega

/-- Unfolding of the reducing branch of downsample. -/
theorem downsample_eq_map {α : Type} [Inhabited α] (d : List α) (m : ℕ)
    (h : ¬ d.length ≤ m) :
    downsample d m =
      (List.range m).map (fun i => d.getD (dsIdx d.length m i) default) := by
  simp [downsample, h]

/-- A reducing downsample is a sublist (subsequence) of its input. -/
theorem downsample_sublist_of_lt {α : Type} [Inhabited α] (d : List α) (m : ℕ)
    (hm : 2 ≤ m) (hlt : m < d.length) :
    (downsample d m).Sublist d := by
  rw [downsample_eq_map d m (by omega)]
  have hbound : ∀ i : Fin m, dsIdx d.length m i.1 < d.length :=
    fun i => dsIdx_bound hm hlt i.2
  have hpair : (List.map
      (fun i : Fin m => (⟨dsIdx d.length m i.1, hbound i⟩ : Fin d.length))
      (List.finRange m)).Pairwise (fun a b => a < b) := by
    refine List.Pairwise.map _ ?_ (List.pairwise_lt_finRange m)
    intro a b hab
    exact Fin.mk_lt_mk.mpr (dsIdx_strictMono hm hlt hab b.2)
  have hsub := List.map_getElem_sublist hpair
  have hmaps : (List.range m).map (fun i => d.getD (dsIdx d.length m i) default) =
      List.map (fun x : Fin d.length => d[x])
        (List.map (fun i : Fin m => (⟨dsIdx d.length m i.1, hbound i⟩ : Fin d.length))
          (List.finRange m)) := by
    rw [List.map_map, ← List.map_coe_finRange m, List.map_map]
    apply List.map_congr_left
    intro a _
    exact List.getD_eq_getElem d default (hbound a)
  rw [hmaps]
  exact hsub

/-- A reducing downsample keeps the first input point. -/
theorem downsample_head_of_lt {α : Type} [Inhabited α] (d : List α) (m : ℕ)
    (hm : 2 ≤ m) (hlt : m < d.length) :
    (downsample d m).head? = d.head? := by
  rw [downsample_eq_map d m (by omega)]
  obtain ⟨k, rfl⟩ : ∃ k, m = k + 1 := ⟨m - 1, by omega⟩
  rw [List.range_succ_eq_map]
  simp only [List.map_cons, List.head?_cons]
  have h0 : dsIdx d.length (k + 1) 0 = 0 := by
    rw [dsIdx_interior (by omega)]
    norm_num [jsRound]
  rw [h0]
  have hd0 : 0 < d.length := by omega
  rw [List.getD_eq_getElem d default hd0, List.head?_eq_getElem?,
    List.getElem?_eq_getElem hd0]

/-- A reducing downsample keeps the last input point. -/
theorem downsample_getLast_of_lt {α : Type} [Inhabited α] (d : List α) (m : ℕ)
    (_hm : 2 ≤ m) (hlt : m < d.length) :
    (downsample d m).getLast? = d.getLast? := by
  rw [downsample_eq_map d m (by omega)]
  obtain ⟨k, rfl⟩ : ∃ k, m = k + 1 := ⟨m - 1, by omega⟩
  rw [List.range_succ, List.map_append]
  simp only [List.map_cons, List.map_nil]
  rw [List.getLast?_concat]
  have hk : dsIdx d.length (k + 1) k = d.length - 1 := by
    simp [dsIdx]
  rw [hk]
  have hd : d.length - 1 < d.length := by omega
  rw [List.getD_eq_getElem d default hd, List.getLast?_eq_getElem?,
    List.getElem?_eq_getElem hd]

/-- C8: whenever downsampling actually reduces the data, the output is a
subsequence of the input taken at strictly increasing indices and keeps
the input's first and last points, preserving point order and the curve's
endpoints. -/
theorem downsample_subsequence {α : Type} [Inhabited α] (data : List α)
    (maxPoints : ℕ) (hm : 2 ≤ maxPoints) (hlt : maxPoints < data.length) :
    (downsample data maxPoints).Sublist data ∧
    (downsample data maxPoints).head? = data.head? ∧
    (downsample data maxPoints).getLast? = data.getLast? :=
  ⟨downsample_sublist_of_lt data maxPoints hm hlt,
   downsample_head_of_lt data maxPoints hm hlt,
   downsample_getLast_of_lt data maxPoints hm hlt⟩

/-- Witness for C8 on a concrete five-point series reduced to two. -/
theorem downsample_subsequence_witness :
    (downsample chartEx 2).Sublist chartEx ∧
    (downsample chartEx 2).head? = chartEx.head? ∧
    (downsample chartEx 2).getLast? = chartEx.getLast? :=
  downsample_subsequence chartEx 2 (by norm_num) (by simp [chartEx])

/-- C1: downsample returns its input unchanged when the input fits under
the ceiling and exactly maxPoints points otherwise; hence the point count
handed to each chart series never exceeds MAX_CHART_POINTS = 8000. -/
theorem downsample_point_count {α : Type} [Inhabited α] (data : List α)
    (maxPoints : ℕ) (_hm : 2 ≤ maxPoints) :
    (data.length ≤ maxPoints → downsample data maxPoints = data) ∧
    (maxPoints < data.length → (downsample data maxPoints).length = maxPoints) ∧
    (∀ history : List EquityPoint, (seriesData history).length ≤ MAX_CHART_POINTS) := by
  refine ⟨?_, ?_, ?_⟩
  · intro h
    simp [downsample, h]
  · intro h
    rw [downsample_eq_map data maxPoints (by omega)]
    simp
  · intro history
    unfold seriesData
    by_cases h : ((history.map toChartPoint).mergeSort chartTimeLE).length ≤
        MAX_CHART_POINTS
    · simp only [downsample, if_pos h]
      exact h
    · rw [downsample_eq_map _ _ h]
      simp

/-- Witness for C1 at ceiling 2 over a five-point series. -/
theorem downsample_point_count_witness :
    (chartEx.length ≤ 2 → downsample chartEx 2 = chartEx) ∧
    (2 < chartEx.length → (downsample chartEx 2).length = 2) ∧
    (∀ history : List EquityPoint, (seriesData history).length ≤ MAX_CHART_POINTS) :=
  downsample_point_count chartEx 2 (by norm_num)

/-- The ascending time comparator is transitive. -/
theorem chartTimeLE_trans (a b c : ChartPoint)
    (hab : chartTimeLE a b = true) (hbc : chartTimeLE b c = true) :
    chartTimeLE a c = true := by
  simp only [chartTimeLE, decide_eq_true_eq] at *
  exact le_trans hab hbc

/-- The ascending time comparator is total. -/
theorem chartTimeLE_total (a b : ChartPoint) :
    (chartTimeLE a b || chartTimeLE b a) = true := by
  simp only [chartTimeLE, Bool.or_eq_true, decide_eq_true_eq]
  exact le_total a.time b.time

/-- The sorted chart data is in nondecreasing time order. -/
theorem sortedChart_pairwise (history : List EquityPoint) :
    ((history.map toChartPoint).mergeSort chartTimeLE).Pairwise
      (fun a b => a.time ≤ b.time) := by
  have h := List.sorted_mergeSort chartTimeLE_trans chartTimeLE_total
    (history.map toChartPoint)
  exact h.imp (fun hab => by
    simpa only [chartTimeLE, decide_eq_true_eq] using hab)

/-- The length of the sorted chart data equals the history length. -/
theorem sortedChart_length (history : List EquityPoint) :
    ((history.map toChartPoint).mergeSort chartTimeLE).length = history.length := by
  rw [List.length_mergeSort, List.length_map]

/-- Counterexample to C7 as stated: on a history one point above the
ceiling, the data passed to the series has only MAX_CHART_POINTS points
and hence is not a permutation of the mapped input. -/
theorem seriesData_counterexample :
    ¬ (seriesData bigHistory).Perm (bigHistory.map toChartPoint) := by
  intro hperm
  have hbig : bigHistory.length = MAX_CHART_POINTS + 1 := by
    unfold bigHistory
    rw [List.length_map, List.length_range]
  have hsorted : ((bigHistory.map toChartPoint).mergeSort chartTimeLE).length =
      MAX_CHART_POINTS + 1 := by
    rw [sortedChart_length, hbig]
  have hlen : (seriesData bigHistory).length = MAX_CHART_POINTS := by
    unfold seriesData
    rw [downsample_eq_map _ _ (by rw [hsorted]; omega)]
    simp
  have hlen2 : (bigHistory.map toChartPoint).length = MAX_CHART_POINTS + 1 := by
    rw [List.length_map, hbig]
  have hpl := hperm.length_eq
  rw [hlen, hlen2] at hpl
  omega

/-- C7 (amended): for every account with a non-empty equity history, the
data passed to its chart series is the history mapped pointwise to
(time = ts, value = equity) pairs in nondecreasing time order; it is a
permutation of the mapped input when the history holds at most
MAX_CHART_POINTS points, and is downsampled to exactly MAX_CHART_POINTS
points otherwise; one series exists per account mode. -/
theorem seriesData_spec (history : List EquityPoint) (_hne : history ≠ []) :
    (seriesData history).Pairwise (fun a b => a.time ≤ b.time) ∧
    (history.length ≤ MAX_CHART_POINTS →
      (seriesData history).Perm (history.map toChartPoint)) ∧
    (MAX_CHART_POINTS < history.length →
      (seriesData history).length = MAX_CHART_POINTS) ∧
    (∀ accounts : List (String × AccountData),
      (seriesModes accounts).Nodup ∧
      (∀ mode, mode ∈ seriesModes accounts ↔
        mode ∈ MODE_KEYS ∧ (accounts.lookup mode).isSome = true)) := by
  refine ⟨?_, ?_, ?_, ?_⟩
  · by_cases h : ((history.map toChartPoint).mergeSort chartTimeLE).length ≤
        MAX_CHART_POINTS
    · unfold seriesData
      simp only [downsample, if_pos h]
      exact sortedChart_pairwise history
    · have hsub : (seriesData history).Sublist
          ((history.map toChartPoint).mergeSort chartTimeLE) := by
        unfold seriesData
        exact downsample_sublist_of_lt _ _ (by norm_num [MAX_CHART_POINTS]) (by omega)
      exact List.Pairwise.sublist hsub (sortedChart_pairwise history)
  · intro h
    unfold seriesData
    have hlen : ((history.map toChartPoint).mergeSort chartTimeLE).length ≤
        MAX_CHART_POINTS := by
      rw [sortedChart_length]
      exact h
    simp only [downsample, if_pos hlen]
    exact List.mergeSort_perm _ _
  · intro h
    unfold seriesData
    have hlen : ¬ ((history.map toChartPoint).mergeSort chartTimeLE).length ≤
        MAX_CHART_POINTS := by
      rw [sortedChart_length]
      omega
    rw [downsample_eq_map _ _ hlen]
    simp
  · intro accounts
    refine ⟨List.Nodup.filter _ (by decide), ?_⟩
    intro mode
    simp [seriesModes, List.mem_filter]

/-- Witness for C7 on the concrete three-point history of acctEx. -/
theorem seriesData_spec_witness :
    (seriesData acctEx.equity_history).Pairwise (fun a b => a.time ≤ b.time) ∧
    (acctEx.equity_history.length ≤ MAX_CHART_POINTS →
      (seriesData acctEx.equity_history).Perm
        (acctEx.equity_history.map toChartPoint)) ∧
    (MAX_CHART_POINTS < acctEx.equity_history.length →
      (seriesData acctEx.equity_history).length = MAX_CHART_POINTS) ∧
    (∀ accounts : List (String × AccountData),
      (seriesModes accounts).Nodup ∧
      (∀ mode, mode ∈ seriesModes accounts ↔
        mode ∈ MODE_KEYS ∧ (accounts.lookup mode).isSome = true)) :=
  seriesData_spec acctEx.equity_history (by simp [acctEx])

/-- After the flag is set, an update run never calls into the time scale. -/
theorem chartViewportCalls_after_set (snaps : List ChartSnapshot) :
    chartViewportCalls true snaps = snaps.map (fun _ => false) := by
  induction snaps with
  | nil => rfl
  | cons snap rest ih =>
      simp [chartViewportCalls, chartUpdateStep, ih]

/-- The initialRangeSet flag stays set once set. -/
theorem chartFlagAfter_set (snaps : List ChartSnapshot) :
    chartFlagAfter true snaps = true := by
  induction snaps with
  | nil => rfl
  | cons snap rest ih =>
      simp [chartFlagAfter, chartUpdateStep, ih]

/-- A constantly-false list holds no true entry. -/
theorem count_true_map_false {β : Type} (l : List β) :
    (l.map (fun _ => false)).count true = 0 := by
  simp [List.count_replicate]

/-- The spec-side marker flags at most one position. -/
theorem firstTrueOnly_count (bs : List Bool) :
    (firstTrueOnly bs).count true ≤ 1 := by
  induction bs with
  | nil => simp [firstTrueOnly]
  | cons b rest ih =>
      by_cases hb : b
      · simp [firstTrueOnly, hb, List.count_cons, List.count_replicate]
      · simp [firstTrueOnly, hb, List.count_cons]
        exact ih

/-- C2: across any polling run after chart creation, the update effect
calls into the time scale exactly on the first update in which some
account has a non-empty equity history (the initialRangeSet flag flips
then and stays set), and never afterwards: the viewport-call trace equals
the first-true marker of the has-data trace and holds at most one call. -/
theorem chart_viewport_once (snaps : List ChartSnapshot) :
    chartViewportCalls false snaps = firstTrueOnly (snaps.map snapHasData) ∧
    (chartViewportCalls false snaps).count true ≤ 1 ∧
    (∀ rest : List ChartSnapshot, chartFlagAfter true rest = true) := by
  have heq : ∀ l : List ChartSnapshot,
      chartViewportCalls false l = firstTrueOnly (l.map snapHasData) := by
    intro l
    induction l with
    | nil => rfl
    | cons snap rest ih =>
        by_cases h : snapHasData snap
        · simp [chartViewportCalls, chartUpdateStep, h, firstTrueOnly,
            chartViewportCalls_after_set, List.map_map, Function.comp]
        · simp [chartViewportCalls, chartUpdateStep, h, firstTrueOnly, ih]
  refine ⟨heq snaps, ?_, fun rest => chartFlagAfter_set rest⟩
  rw [heq snaps]
  exact firstTrueOnly_count _

end BotDashboard
